import Mathlib

/-!
Shallow embedding of the GraphQL schema layer of the repository
(src/index.js, src/unnamed/part_000: both hold the same schema module, the
first with field names firstName/title, the second with name/name; we embed
the index.js variant, which the claims also cover via "title/name").

The document store (mongoose models User and Post) is an external
collaborator per the spec; its operations findById, find, save,
findByIdAndUpdate and findByIdAndRemove are modelled from the spec where
their behaviour decides a claim. Documents are modelled as records whose
optional fields are Option String: a field holding none corresponds to a
field that is absent from the stored document (a JS undefined value is
stripped before persisting).
-/

/-- A stored User document (src/index.js lines 28-37 declare the exposed
shape: id, firstName, email, phone). Users are only created through
createUser, whose three arguments are all non-null, so the fields are
plain strings. -/
structure UserDoc where
  id : String
  firstName : String
  email : String
  phone : String
deriving DecidableEq, Repr

/-- A stored Post document (src/index.js lines 39-55 declare the exposed
shape: id, title, description, status, creatorId). All fields but id are
Option String: none models a field absent from the stored document. -/
structure PostDoc where
  id : String
  title : Option String
  description : Option String
  status : Option String
  creatorId : Option String
deriving DecidableEq, Repr

/-- The two collections of the external document store. -/
structure Store where
  users : List UserDoc
  posts : List PostDoc
deriving DecidableEq, Repr

/-- Dynamic field access on a Post document, as a MongoDB filter performs
it: a key that is not a field of the document yields undefined (none). -/
def postFieldValue (p : PostDoc) : String → Option String
  | "id" => some p.id
  | "title" => p.title
  | "description" => p.description
  | "status" => p.status
  | "creatorId" => p.creatorId
  | _ => none

/-- Modelled from the spec: the store collaborator's find(filter) over the
posts collection. A one-key filter { k: v } matches the documents whose
field k holds v. -/
def postFind (store : Store) (filter : String × String) : List PostDoc :=
  store.posts.filter (fun p => postFieldValue p filter.1 == some filter.2)

/-- Modelled from the spec: User.findById — point lookup by id, null when
absent; findById(undefined) is also null. -/
def userFindById (store : Store) (id : Option String) : Option UserDoc :=
  id.bind (fun i => store.users.find? (fun u => u.id == i))

/-- Modelled from the spec: Post.findById — point lookup by id. -/
def postFindById (store : Store) (id : String) : Option PostDoc :=
  store.posts.find? (fun p => p.id == id)

/-- Modelled from the spec: User.findByIdAndRemove — removes the document
with the given id and returns it, or returns null leaving the store
unchanged when the id is absent. -/
def userFindByIdAndRemove (store : Store) (id : String) : Store × Option UserDoc :=
  match store.users.find? (fun u => u.id == id) with
  | none => (store, none)
  | some u => ({ store with users := store.users.eraseP (fun v => v.id == id) }, some u)

/-- Modelled from the spec: Post.findByIdAndRemove. -/
def postFindByIdAndRemove (store : Store) (id : String) : Store × Option PostDoc :=
  match store.posts.find? (fun p => p.id == id) with
  | none => (store, none)
  | some p => ({ store with posts := store.posts.eraseP (fun q => q.id == id) }, some p)

/-! ## Schema shape

The GraphQLObjectType / GraphQLSchema configuration objects, embedded as
data. Only the shape the execution engine consumes is kept: which field
names a fields object declares, which argument names a field declares, and
which extra keys sit in a field config object (the engine ignores keys
other than type, args and resolve). -/

/-- One field's config object inside a fields map. extraKeys records object
keys present in the source that are not recognised GraphQL field-config
keys; the engine ignores them. -/
structure FieldConfig where
  declaredArgs : List String := []
  extraKeys : List String := []
deriving DecidableEq, Repr

/-- RootQuery (src/index.js lines 58-137). In the source the keys users
(line 87), post (line 107) and posts (line 129) sit inside the object that
configures the user field — the brace closing the user config only comes
at line 135 — so the fields map of RootQueryType holds the single key
user, and users/post/posts are unrecognised extra keys of the user field
config. -/
def rootQueryFields : List (String × FieldConfig) :=
  [("user", { declaredArgs := ["id"], extraKeys := ["users", "post", "posts"] })]

/-- Mutation (src/index.js lines 141-295): five mutation fields with their
declared argument names. -/
def mutationFields : List (String × FieldConfig) :=
  [("createUser", { declaredArgs := ["firstName", "email", "phone"] }),
   ("deleteUser", { declaredArgs := ["id"] }),
   ("createPost", { declaredArgs := ["creatorId", "title", "description", "status"] }),
   ("updatePost", { declaredArgs := ["id", "title", "description", "status"] }),
   ("deletePost", { declaredArgs := ["id"] })]

/-- The config object passed to new GraphQLSchema: an optional query root
and an optional mutation root. -/
structure GraphQLSchemaConfig where
  query : Option (List (String × FieldConfig)) := none
  mutation : Option (List (String × FieldConfig)) := none
deriving DecidableEq, Repr

/-- The exported schema, src/index.js lines 298-300:
new GraphQLSchema({ query: RootQuery }). The config object has no
mutation key. -/
def schema : GraphQLSchemaConfig :=
  { query := some rootQueryFields }

/-- Top-level query field names a request can name against a schema: the
keys of the query root's fields map, if a query root was composed. -/
def servableQueryFields (s : GraphQLSchemaConfig) : List String :=
  (s.query.getD []).map Prod.fst

/-- Top-level mutation field names a request can name against a schema:
the keys of the mutation root's fields map, if a mutation root was
composed. A mutation request is validated against this list before any
resolver runs, so a name outside it never reaches a resolver. -/
def servableMutationFields (s : GraphQLSchemaConfig) : List String :=
  (s.mutation.getD []).map Prod.fst

/-! ## Resolvers -/

/-- Root resolver users: User.find() returns the full collection
(src/index.js line 91). -/
def usersResolve (store : Store) : List UserDoc :=
  store.users

/-- Root resolver posts: Post.find() returns the full collection
(src/index.js line 132). -/
def postsResolve (store : Store) : List PostDoc :=
  store.posts

/-- Root resolver user: User.findById(args.id) (src/index.js line 69). -/
def userResolve (store : Store) (argsId : String) : Option UserDoc :=
  userFindById store (some argsId)

/-- Root resolver post: Post.findById(args.id) (src/index.js line 111). -/
def postResolve (store : Store) (argsId : String) : Option PostDoc :=
  postFindById store argsId

/-- Argument names declared by the creator field nested on PostType
(src/index.js lines 48-53): the field config has no args key. -/
def creatorFieldArgs : List String := []

/-- Nested creator resolver on PostType (src/index.js lines 50-52):
User.findById(post.creatorId), the lookup key taken from the parent post. -/
def creatorResolve (store : Store) (post : PostDoc) : Option UserDoc :=
  userFindById store post.creatorId

/-- Engine execution of a posts selection that also selects creator: each
post from the posts resolver paired with its resolved creator. The
function is total, so a null creator never fails the surrounding
request. -/
def execPostsCreator (store : Store) : List (PostDoc × Option UserDoc) :=
  (postsResolve store).map (fun p => (p, creatorResolve store p))

/-! ## Mutation resolvers -/

/-- A JavaScript runtime error raised inside a resolver. -/
inductive JsError where
  | referenceError (name : String)
deriving DecidableEq, Repr

/-- An operation the deleteUser resolver issues against the store, in
issue order. -/
inductive StoreEvent where
  | findPosts (filter : String × String)
  | removePost (id : String)
  | removeUser (id : String)
deriving DecidableEq, Repr

/-- JS property access args.k on an arguments object, keyed by string:
undefined (none) for a key the object does not hold. -/
def jsGet (args : List (String × String)) (k : String) : Option String :=
  (args.find? (fun kv => kv.1 == k)).map (fun kv => kv.2)

/-- createUser resolver (src/index.js lines 153-157): destructures
firstName, email and phone from args and saves a new User; the store
assigns the id (passed here as freshId). Returns the saved document. -/
def createUserResolve (firstName email phone freshId : String)
    (store : Store) : Store × UserDoc :=
  let u : UserDoc := { id := freshId, firstName := firstName, email := email, phone := phone }
  ({ store with users := store.users ++ [u] }, u)

/-- The body of the deleteUser resolver (src/index.js lines 176-186) after
the await of Post.find({ userId }), parametric in the list usersPosts that
the external store returned for that find. The loop
for (post of usersPosts) assigns the identifier post, which is declared
nowhere; the module is an ES module, hence strict-mode code, so the
assignment performed on the loop's first iteration throws
ReferenceError before the body's post.deleteOne() can run. An empty find
result performs no iteration (and no assignment) and falls through to
User.findByIdAndRemove(userId). Returns the resulting store, the trace of
store operations issued, and the resolver's outcome. -/
def deleteUserRun (usersPosts : List PostDoc) (store : Store) (argsId : String) :
    Store × List StoreEvent × Except JsError (Option UserDoc) :=
  match usersPosts with
  | [] =>
      let r := userFindByIdAndRemove store argsId
      (r.1, [.findPosts ("userId", argsId), .removeUser argsId], .ok r.2)
  | _ :: _ =>
      (store, [.findPosts ("userId", argsId)], .error (.referenceError "post"))

/-- deleteUser resolver (src/index.js lines 176-186): reads userId from
args.id, awaits Post.find({ userId }) — shorthand for the filter
{ userId: userId } — then runs the cascade loop and the final
User.findByIdAndRemove. -/
def deleteUserResolve (store : Store) (argsId : String) :
    Store × List StoreEvent × Except JsError (Option UserDoc) :=
  deleteUserRun (postFind store ("userId", argsId)) store argsId

/-- Client-facing selector tokens of the PostStatus enum
(src/index.js lines 206-216). -/
inductive PostStatusToken where
  | new
  | progress
  | completed
deriving DecidableEq, Repr

/-- Value each PostStatus enum token maps to (src/index.js lines 209-213). -/
def postStatusValue : PostStatusToken → String
  | .new => "Not Started"
  | .progress => "In Progress"
  | .completed => "Completed"

/-- The coerced arguments object the engine hands the createPost resolver:
the three non-null arguments as supplied, and status as the enum token's
value, or the declared defaultValue "Not Started" (src/index.js line 215)
when the client omitted status. -/
def createPostArgsObject (creatorId title description : String)
    (status : Option PostStatusToken) : List (String × String) :=
  [("creatorId", creatorId), ("title", title), ("description", description),
   ("status", match status with
              | some t => postStatusValue t
              | none => "Not Started")]

/-- createPost resolver (src/index.js lines 218-225): saves a new Post
built as { creatorId: args.userId, title: args.title, description:
args.description, status: args.status }; note the creatorId value is read
from the key userId, which the args object does not hold. The store
assigns the id (freshId). -/
def createPostResolve (args : List (String × String)) (freshId : String)
    (store : Store) : Store × PostDoc :=
  let p : PostDoc :=
    { id := freshId
      creatorId := jsGet args "userId"
      title := jsGet args "title"
      description := jsGet args "description"
      status := jsGet args "status" }
  ({ store with posts := store.posts ++ [p] }, p)

/-- The $set document the updatePost resolver builds (src/index.js lines
263-267): one key per optional field, holding the argument's value or
undefined (none) when the argument was omitted. -/
structure SetPatch where
  title : Option String
  description : Option String
  status : Option String
deriving DecidableEq, Repr

/-- Applying a $set patch to one document: a key with a value overwrites
the field, a key holding undefined is stripped and leaves the field
unchanged. -/
def applySet (patch : SetPatch) (p : PostDoc) : PostDoc :=
  { p with
    title := match patch.title with
             | some v => some v
             | none => p.title
    description := match patch.description with
                   | some v => some v
                   | none => p.description
    status := match patch.status with
              | some v => some v
              | none => p.status }

/-- Modelled from the spec: the store collaborator's
findByIdAndUpdate(id, { $set: patch }, { new: true }) — a partial
field-level overwrite of the document matching id, fields absent from the
patch left unchanged; with new: true the document after update is
returned; an absent id yields null and no change. -/
def postFindByIdAndUpdate (store : Store) (id : String) (patch : SetPatch) :
    Store × Option PostDoc :=
  match store.posts.find? (fun p => p.id == id) with
  | none => (store, none)
  | some p =>
      let p' := applySet patch p
      ({ store with posts := store.posts.map (fun q => if q.id == id then p' else q) },
       some p')

/-- The coerced arguments of updatePost (src/index.js lines 244-258):
id required; title, description and the PostStatusUpdate enum value all
optional. -/
structure UpdatePostArgs where
  id : String
  title : Option String
  description : Option String
  status : Option String
deriving DecidableEq, Repr

/-- updatePost resolver (src/index.js lines 259-272):
Post.findByIdAndUpdate(args.id, { $set: { title: args.title, description:
args.description, status: args.status } }, { new: true }). -/
def updatePostResolve (store : Store) (args : UpdatePostArgs) :
    Store × Option PostDoc :=
  postFindByIdAndUpdate store args.id
    { title := args.title, description := args.description, status := args.status }

/-- deletePost resolver (src/index.js lines 290-292):
Post.findByIdAndRemove(args.id). -/
def deletePostResolve (store : Store) (argsId : String) : Store × Option PostDoc :=
  postFindByIdAndRemove store argsId

/-- True when some removeUser operation in the trace is issued strictly
before some removePost operation. -/
def removalOrderViolation : List StoreEvent → Bool
  | [] => false
  | .removeUser _ :: rest =>
      rest.any (fun e => match e with
                         | .removePost _ => true
                         | _ => false)
        || removalOrderViolation rest
  | _ :: rest => removalOrderViolation rest

/-- A mutation is idempotent when running it a second time with the same
arguments, from the state the first run produced, changes nothing and
returns the same result. Stated here for updatePost. -/
def updatePostIdempotent : Prop :=
  ∀ (store : Store) (args : UpdatePostArgs),
    updatePostResolve (updatePostResolve store args).1 args = updatePostResolve store args

/-! ## Concrete fixtures -/

/-- A concrete stored user (values from the client examples in the source
comments). -/
def aUser : UserDoc :=
  { id := "u1", firstName := "Alex", email := "a@t.com", phone := "07516" }

/-- A concrete stored post whose creatorId references aUser. -/
def aPost : PostDoc :=
  { id := "p1", title := some "Hello", description := some "First Post!",
    status := some "Not Started", creatorId := some "u1" }

/-- A store holding one user and one post created by that user. -/
def aStore : Store :=
  { users := [aUser], posts := [aPost] }

/-- A store holding only aPost, for exercising updatePost. -/
def bStore : Store :=
  { users := [], posts := [aPost] }

/-- updatePost arguments supplying only status. -/
def bArgs : UpdatePostArgs :=
  { id := "p1", title := none, description := none, status := some "Completed" }

/-- A concrete post whose creatorId references no stored user. -/
def cPost : PostDoc :=
  { id := "p2", title := some "Orphan", description := some "No author",
    status := some "In Progress", creatorId := some "ghost" }

/-- A store where cPost's creator reference dangles. -/
def cStore : Store :=
  { users := [aUser], posts := [cPost] }

/-! ## Helper lemmas -/

/-- No Post document has a userId field, so a filter keyed on userId reads
undefined from every document. -/
theorem postFieldValue_userId (p : PostDoc) : postFieldValue p "userId" = none :=
  rfl

/-- Post.find({ userId: x }) matches no document, whatever the store. -/
theorem postFind_userId (store : Store) (x : String) :
    postFind store ("userId", x) = [] := by
  unfold postFind
  refine List.filter_eq_nil_iff.mpr (fun p _ => ?_)
  rw [postFieldValue_userId]
  simp

/-! ## Claim theorems -/

/-- C1: the exported schema does not compose the Mutation Root: the config
passed to new GraphQLSchema has no mutation key, so the list of servable
mutation fields is empty and none of the five declared mutations
(createUser, deleteUser, createPost, updatePost, deletePost) can be
reached by an execution request through the exported schema. -/
theorem schema_composes_no_mutation_root :
    schema.mutation = none ∧
    servableMutationFields schema = [] ∧
    mutationFields.map Prod.fst =
      ["createUser", "deleteUser", "createPost", "updatePost", "deletePost"] :=
  ⟨rfl, rfl, rfl⟩

/-- C2: the Query Root serves only the single top-level field user, not
the four fields the claim states: users, post and posts sit as ignored
extra keys inside the user field's config object. The users and posts
resolvers themselves do return the full collections. -/
theorem rootQuery_serves_only_user :
    servableQueryFields schema = ["user"] ∧
    (rootQueryFields.map Prod.fst).length = 1 ∧
    (∀ store : Store, usersResolve store = store.users ∧ postsResolve store = store.posts) :=
  ⟨rfl, rfl, fun _ => ⟨rfl, rfl⟩⟩

/-- C3: at a store holding user u1 and one post whose creatorId is u1,
deleteUser(id = u1) removes the user but removes none of the user's
posts: the cascade queries Post.find({ userId: "u1" }), a field no post
holds, so the posts collection is unchanged instead of one post
shorter. -/
theorem deleteUser_cascade_removes_no_posts :
    deleteUserResolve aStore "u1" =
      ({ users := [], posts := [aPost] },
       [.findPosts ("userId", "u1"), .removeUser "u1"], .ok (some aUser)) ∧
    (deleteUserResolve aStore "u1").1.posts.length = aStore.posts.length :=
  ⟨rfl, rfl⟩

/-- C4: the createPost resolver does not read the declared creatorId
argument: it builds the persisted document from args.userId, a key the
coerced arguments object never holds, so for every valid invocation the
persisted creatorId is undefined (absent) instead of the supplied
creatorId value. -/
theorem createPost_persisted_creatorId_undefined (c t d : String)
    (st : Option PostStatusToken) (fid : String) (store : Store) :
    ((createPostResolve (createPostArgsObject c t d st) fid store).2).creatorId = none :=
  rfl

/-- C10: createPost with status omitted persists status "Not Started"
(the declared defaultValue), and the PostStatus enum maps the selector
tokens new, progress, completed to the constants "Not Started",
"In Progress", "Completed". -/
theorem createPost_status_default_and_enum (c t d fid : String) (store : Store) :
    ((createPostResolve (createPostArgsObject c t d none) fid store).2).status =
      some "Not Started" ∧
    postStatusValue .new = "Not Started" ∧
    postStatusValue .progress = "In Progress" ∧
    postStatusValue .completed = "Completed" ∧
    (∀ tok, ((createPostResolve (createPostArgsObject c t d (some tok)) fid store).2).status =
      some (postStatusValue tok)) :=
  ⟨rfl, rfl, rfl, rfl, fun _ => rfl⟩

/-- C5: whenever the find preceding the cascade returns a non-empty list,
the for-of loop's first iteration assigns the undeclared identifier post
and throws ReferenceError under ES-module strict mode: the resolver
errors with the store unchanged, before any post removal and before the
user removal — the trace holds the find and nothing else. -/
theorem deleteUser_nonempty_cascade_throws (store : Store) (argsId : String)
    (ps : List PostDoc) (h : ps ≠ []) :
    deleteUserRun ps store argsId =
      (store, [.findPosts ("userId", argsId)], .error (.referenceError "post")) := by
  cases ps with
  | nil => exact absurd rfl h
  | cons p rest => rfl

/-- Witness for C5 at a concrete non-empty find result. -/
theorem deleteUser_nonempty_cascade_throws_witness :
    deleteUserRun [aPost] aStore "u1" =
      (aStore, [.findPosts ("userId", "u1")], .error (.referenceError "post")) :=
  deleteUser_nonempty_cascade_throws aStore "u1" [aPost] (by decide)

/-- C7: in every execution of the deleteUser resolver — whatever list the
find returns — the trace of issued store operations never places a
removeUser before a removePost: the final user removal is sequenced after
the whole cascade (which, as written, either performs no removal or
errors first). -/
theorem deleteUser_user_removal_after_cascade (ps : List PostDoc)
    (store : Store) (argsId : String) :
    removalOrderViolation (deleteUserRun ps store argsId).2.1 = false := by
  cases ps with
  | nil => rfl
  | cons p rest => rfl

/-- C6: when the id matches a stored post, updatePost returns the post
after applying the $set patch built from the arguments, and each field
whose argument was omitted (undefined in the patch) keeps its pre-update
value; in particular supplying only status leaves title and description
unchanged. -/
theorem updatePost_omitted_fields_unchanged (store : Store) (args : UpdatePostArgs)
    (p : PostDoc) (h : store.posts.find? (fun q => q.id == args.id) = some p) :
    (updatePostResolve store args).2 =
      some (applySet { title := args.title, description := args.description,
                       status := args.status } p) ∧
    (args.title = none →
      (applySet { title := args.title, description := args.description,
                  status := args.status } p).title = p.title) ∧
    (args.description = none →
      (applySet { title := args.title, description := args.description,
                  status := args.status } p).description = p.description) ∧
    (args.status = none →
      (applySet { title := args.title, description := args.description,
                  status := args.status } p).status = p.status) := by
  refine ⟨?_, ?_, ?_, ?_⟩
  · unfold updatePostResolve postFindByIdAndUpdate
    rw [h]
  · intro ht
    simp [applySet, ht]
  · intro hd
    simp [applySet, hd]
  · intro hs
    simp [applySet, hs]

/-- Witness for C6: updating aPost with only status supplied keeps its
title and description. -/
theorem updatePost_omitted_fields_unchanged_witness :
    (updatePostResolve bStore bArgs).2 =
      some (applySet { title := none, description := none,
                       status := some "Completed" } aPost) ∧
    (bArgs.title = none →
      (applySet { title := none, description := none,
                  status := some "Completed" } aPost).title = aPost.title) ∧
    (bArgs.description = none →
      (applySet { title := none, description := none,
                  status := some "Completed" } aPost).description = aPost.description) ∧
    (bArgs.status = none →
      (applySet { title := none, description := none,
                  status := some "Completed" } aPost).status = aPost.status) :=
  updatePost_omitted_fields_unchanged bStore bArgs aPost rfl

/-- C9: the creator field declares no arguments, its resolver is the
point lookup User.findById keyed by the parent post's creatorId, a
dangling creatorId resolves to none, and the response of a posts
selection still carries that post paired with creator none rather than
failing. -/
theorem creator_null_when_user_absent (store : Store) (p : PostDoc)
    (hp : p ∈ store.posts)
    (hu : ∀ u ∈ store.users, some u.id ≠ p.creatorId) :
    creatorFieldArgs = [] ∧
    creatorResolve store p = userFindById store p.creatorId ∧
    creatorResolve store p = none ∧
    (p, none) ∈ execPostsCreator store := by
  have hc : creatorResolve store p = none := by
    unfold creatorResolve userFindById
    cases hcid : p.creatorId with
    | none => rfl
    | some i =>
        show store.users.find? (fun u => u.id == i) = none
        refine List.find?_eq_none.mpr (fun u hu' => ?_)
        simp only [beq_iff_eq]
        intro heq
        exact hu u hu' (by rw [heq, hcid])
  refine ⟨rfl, rfl, hc, ?_⟩
  unfold execPostsCreator postsResolve
  exact List.mem_map.mpr ⟨p, hp, by rw [hc]⟩

/-- Witness for C9: cPost's creatorId references no stored user; its
creator resolves to none and the posts selection still returns it. -/
theorem creator_null_when_user_absent_witness :
    creatorFieldArgs = [] ∧
    creatorResolve cStore cPost = userFindById cStore cPost.creatorId ∧
    creatorResolve cStore cPost = none ∧
    (cPost, none) ∈ execPostsCreator cStore :=
  creator_null_when_user_absent cStore cPost (by decide) (by decide)

/-! ## Idempotence of updatePost (helper development for C8) -/

/-- A $set patch never touches the id field. -/
theorem applySet_id (patch : SetPatch) (p : PostDoc) :
    (applySet patch p).id = p.id :=
  rfl

/-- Applying the same $set patch twice equals applying it once. -/
theorem applySet_applySet (patch : SetPatch) (p : PostDoc) :
    applySet patch (applySet patch p) = applySet patch p := by
  obtain ⟨t, d, s⟩ := patch
  cases t <;> cases d <;> cases s <;> rfl

/-- After replacing the found document in place, looking the id up again
finds the replacement. -/
theorem find?_map_update (l : List PostDoc) (x : String) (p p' : PostDoc)
    (h : l.find? (fun q => q.id == x) = some p) (hid : (p'.id == x) = true) :
    (l.map (fun q => if q.id == x then p' else q)).find? (fun q => q.id == x) =
      some p' := by
  induction l with
  | nil => simp at h
  | cons a rest ih =>
      by_cases ha : (a.id == x) = true
      · rw [List.map_cons, if_pos ha]
        exact List.find?_cons_of_pos _ hid
      · have hskip : List.find? (fun q => q.id == x) (a :: rest) =
            List.find? (fun q => q.id == x) rest :=
          List.find?_cons_of_neg _ ha
        rw [hskip] at h
        rw [List.map_cons, if_neg ha]
        have hskip2 : List.find? (fun q => q.id == x)
              (a :: rest.map (fun q => if q.id == x then p' else q)) =
            List.find? (fun q => q.id == x)
              (rest.map (fun q => if q.id == x then p' else q)) :=
          List.find?_cons_of_neg _ ha
        rw [hskip2]
        exact ih h

/-- Replacing by the same document a second time changes nothing. -/
theorem map_update_map_update (l : List PostDoc) (x : String) (p' : PostDoc) :
    ((l.map (fun q => if q.id == x then p' else q)).map
        (fun q => if q.id == x then p' else q)) =
      l.map (fun q => if q.id == x then p' else q) := by
  rw [List.map_map]
  refine List.map_congr_left (fun a _ => ?_)
  by_cases hq : (a.id == x) = true
  · have ha' : (if (a.id == x) = true then p' else a) = p' := if_pos hq
    rw [Function.comp_apply, ha']
    exact ite_self p'
  · have ha' : (if (a.id == x) = true then p' else a) = a := if_neg hq
    rw [Function.comp_apply, ha']
    exact ha'

/-- findByIdAndUpdate when the id matches no post. -/
theorem postFindByIdAndUpdate_notFound (store : Store) (x : String) (patch : SetPatch)
    (h : store.posts.find? (fun q => q.id == x) = none) :
    postFindByIdAndUpdate store x patch = (store, none) := by
  unfold postFindByIdAndUpdate
  rw [h]

/-- findByIdAndUpdate when the id matches a stored post. -/
theorem postFindByIdAndUpdate_found (store : Store) (x : String) (patch : SetPatch)
    (p : PostDoc) (h : store.posts.find? (fun q => q.id == x) = some p) :
    postFindByIdAndUpdate store x patch =
      ({ store with posts := store.posts.map (fun q => if q.id == x then applySet patch p else q) },
       some (applySet patch p)) := by
  unfold postFindByIdAndUpdate
  rw [h]

/-- Running findByIdAndUpdate a second time with the same id and patch,
from the state the first run produced, reproduces the first run. -/
theorem postFindByIdAndUpdate_self (store : Store) (x : String) (patch : SetPatch) :
    postFindByIdAndUpdate (postFindByIdAndUpdate store x patch).1 x patch =
      postFindByIdAndUpdate store x patch := by
  cases h : store.posts.find? (fun q => q.id == x) with
  | none =>
      rw [postFindByIdAndUpdate_notFound store x patch h]
      exact postFindByIdAndUpdate_notFound store x patch h
  | some p =>
      have hp := List.find?_some h
      have hid : ((applySet patch p).id == x) = true := by
        rw [applySet_id]
        exact hp
      have h2 := find?_map_update store.posts x p (applySet patch p) h hid
      have h4 := postFindByIdAndUpdate_found
        { store with posts := store.posts.map (fun q => if q.id == x then applySet patch p else q) }
        x patch (applySet patch p) h2
      rw [postFindByIdAndUpdate_found store x patch p h]
      have heq :
          (({ store with posts := (store.posts.map (fun q => if q.id == x then applySet patch p else q)).map (fun q => if q.id == x then applySet patch (applySet patch p) else q) } : Store),
            some (applySet patch (applySet patch p))) =
          (({ store with posts := store.posts.map (fun q => if q.id == x then applySet patch p else q) } : Store),
            some (applySet patch p)) := by
        rw [applySet_applySet]
        exact congrArg
          (fun l => (({ store with posts := l } : Store), some (applySet patch p)))
          (map_update_map_update store.posts x (applySet patch p))
      exact h4.trans heq

/-- updatePost is idempotent: the second identical run changes nothing
and returns the same document. -/
theorem updatePost_also_idempotent : updatePostIdempotent :=
  fun store args =>
    postFindByIdAndUpdate_self store args.id
      { title := args.title, description := args.description, status := args.status }

/-- C8 counterexample: delete-by-id on an absent id is not the sole
idempotent mutation — updatePost is idempotent at every store and
argument object (second identical run: same state, same returned
document), exhibited concretely at bStore / bArgs. -/
theorem updatePost_not_sole_exception :
    updatePostIdempotent ∧
    updatePostResolve (updatePostResolve bStore bArgs).1 bArgs =
      updatePostResolve bStore bArgs :=
  ⟨updatePost_also_idempotent, updatePost_also_idempotent bStore bArgs⟩

/-- C8 (amended): for an id matching no record, deleteUser resolves to ok
none with the store unchanged (the cascade find is empty, the loop never
assigns, the user removal finds nothing), deletePost resolves to none
with the store unchanged, and repeating deletePost on the absent id
reproduces the same outcome rather than erroring. -/
theorem delete_absent_id_resolves_null (store : Store) (x : String)
    (hu : store.users.find? (fun u => u.id == x) = none)
    (hp : store.posts.find? (fun q => q.id == x) = none) :
    deleteUserResolve store x =
      (store, [.findPosts ("userId", x), .removeUser x], .ok none) ∧
    deletePostResolve store x = (store, none) ∧
    deletePostResolve (deletePostResolve store x).1 x = deletePostResolve store x := by
  have hdu : deleteUserResolve store x =
      (store, [.findPosts ("userId", x), .removeUser x], .ok none) := by
    unfold deleteUserResolve
    rw [postFind_userId]
    unfold deleteUserRun userFindByIdAndRemove
    rw [hu]
  have hdp : deletePostResolve store x = (store, none) := by
    unfold deletePostResolve postFindByIdAndRemove
    rw [hp]
  refine ⟨hdu, hdp, ?_⟩
  rw [hdp]
  show deletePostResolve store x = (store, none)
  exact hdp

/-- Witness for C8 at aStore and the absent id zz. -/
theorem delete_absent_id_resolves_null_witness :
    deleteUserResolve aStore "zz" =
      (aStore, [.findPosts ("userId", "zz"), .removeUser "zz"], .ok none) ∧
    deletePostResolve aStore "zz" = (aStore, none) ∧
    deletePostResolve (deletePostResolve aStore "zz").1 "zz" =
      deletePostResolve aStore "zz" :=
  delete_absent_id_resolves_null aStore "zz" rfl rfl
